import Mathlib

/-!
Shallow embedding of the Deployment mutator pipeline of
`pkg/reconcilers/deployment.go` (3scale-operator).

Kubernetes objects are modelled structurally: only the fields the
mutators read or write are carried.  Go slices are Lean lists, Go maps
(`map[string]string`) are association lists, in-place mutation of the
`existing` object is explicit state passing, and a Go panic (out of
range slice index) is `Option.none`.
-/

namespace Reconcilers

/-- corev1.EnvVar: only Name and Value are used by the mutators. -/
structure EnvVar where
  name : String
  value : String
deriving DecidableEq, Repr

/-- corev1.VolumeMount: the mutators only inspect the Name. -/
structure VolumeMount where
  name : String
  mountPath : String
deriving DecidableEq, Repr

/-- corev1.Volume: the mutators only inspect the Name; `source` stands
for the rest of the volume definition. -/
structure Volume where
  name : String
  source : String
deriving DecidableEq, Repr

/-- corev1.ResourceRequirements, as opaque structured data: limits and
requests as (resource name, quantity) pairs. -/
structure ResourceRequirements where
  limits : List (String × String)
  requests : List (String × String)
deriving DecidableEq, Repr

/-- Probes are only ever compared for deep equality and copied
wholesale, so they are modelled as opaque optional data. -/
def Probe := Option String
deriving instance DecidableEq, Repr for Probe

/-- corev1.Container, restricted to the fields the deployment mutators
touch. -/
structure Container where
  name : String
  image : String
  args : List String
  env : List EnvVar
  resources : ResourceRequirements
  volumeMounts : List VolumeMount
  livenessProbe : Probe
  readinessProbe : Probe
deriving DecidableEq, Repr

/-- corev1.PodSpec, restricted to the fields the deployment mutators
touch. -/
structure PodSpec where
  containers : List Container
  initContainers : List Container
  volumes : List Volume
  priorityClassName : String
deriving DecidableEq, Repr

/-- corev1.PodTemplateSpec: labels and annotations from its ObjectMeta
plus the pod spec. -/
structure PodTemplateSpec where
  labels : List (String × String)
  templateAnnotations : List (String × String)
  spec : PodSpec
deriving DecidableEq, Repr

/-- appsv1.DeploymentSpec, restricted to the fields used. -/
structure DeploymentSpec where
  replicas : Option Int
  template : PodTemplateSpec
deriving DecidableEq, Repr

/-- metav1.ObjectMeta, restricted to annotations. -/
structure ObjectMeta where
  metaAnnotations : List (String × String)
deriving DecidableEq, Repr

/-- appsv1.Deployment, restricted to the fields used. -/
structure Deployment where
  objectMeta : ObjectMeta
  spec : DeploymentSpec
deriving DecidableEq, Repr

/-- Shorthand for `d.Spec.Template.Spec.Containers`. -/
def Deployment.containers (d : Deployment) : List Container :=
  d.spec.template.spec.containers

/-- Shorthand for `d.Spec.Template.Spec.InitContainers`. -/
def Deployment.initContainers (d : Deployment) : List Container :=
  d.spec.template.spec.initContainers

/-- Shorthand for `d.Spec.Template.Spec.Volumes`. -/
def Deployment.volumes (d : Deployment) : List Volume :=
  d.spec.template.spec.volumes

/-- Functional update of `d.Spec.Template.Spec.Containers`. -/
def Deployment.setContainers (d : Deployment) (cs : List Container) : Deployment :=
  { d with spec := { d.spec with template := { d.spec.template with
      spec := { d.spec.template.spec with containers := cs } } } }

/-- Functional update of `d.Spec.Template.Spec.InitContainers`. -/
def Deployment.setInitContainers (d : Deployment) (cs : List Container) : Deployment :=
  { d with spec := { d.spec with template := { d.spec.template with
      spec := { d.spec.template.spec with initContainers := cs } } } }

/-- Functional update of `d.Spec.Template.Spec.Volumes`. -/
def Deployment.setVolumes (d : Deployment) (vs : List Volume) : Deployment :=
  { d with spec := { d.spec with template := { d.spec.template with
      spec := { d.spec.template.spec with volumes := vs } } } }

/-- The outcome of one Go mutator call on a `*Deployment`: the returned
`bool`, the returned `error` (`none` = nil), and the state the
in-place-mutated `existing` object was left in. -/
structure MutateOutcome where
  changed : Bool
  err : Option String
  existing : Deployment
deriving DecidableEq, Repr

/-- DMutateFn: `func(desired, existing *k8sappsv1.Deployment) (bool, error)`,
with the in-place mutation of `existing` made explicit. -/
def DMutateFn := Deployment → Deployment → MutateOutcome

/-- common.KubernetesObject as the pipeline sees it: either a
`*k8sappsv1.Deployment` or a value of some other dynamic type (carrying
the Go type name used in the `%T` error message). -/
inductive KubernetesObject where
  | deployment (d : Deployment)
  | other (typeName : String)
deriving DecidableEq, Repr

/-- The `%T` of an object, as interpolated in the type-mismatch error. -/
def KubernetesObject.goTypeName : KubernetesObject → String
  | .deployment _ => "*v1.Deployment"
  | .other t => t

/-- Whether the dynamic type assertion `obj.(*k8sappsv1.Deployment)` succeeds. -/
def KubernetesObject.isDeploymentKind : KubernetesObject → Bool
  | .deployment _ => true
  | .other _ => false

/-- The outcome of the whole pipeline (`MutateFn`), over untyped objects. -/
structure PipelineOutcome where
  changed : Bool
  err : Option String
  existingObj : KubernetesObject
deriving Repr

/-- The `for _, opt := range opts` loop of `DeploymentMutator`
(deployment.go lines 57-66): threads the in-place mutations of
`existing`, ORs the individual `changed` flags into `update`, and on
the first error returns `false` together with that error. -/
def deploymentMutatorLoop (desired : Deployment) :
    List DMutateFn → Deployment → Bool → MutateOutcome
  | [], existing, update => ⟨update, none, existing⟩
  | opt :: rest, existing, update =>
    let r := opt desired existing
    match r.err with
    | some msg => ⟨false, some msg, r.existing⟩
    | none => deploymentMutatorLoop desired rest r.existing (update || r.changed)

/-- DeploymentMutator (deployment.go lines 46-70): type-asserts both
objects (existing first), then runs the composed mutators in order. -/
def DeploymentMutator (opts : List DMutateFn)
    (existingObj desiredObj : KubernetesObject) : PipelineOutcome :=
  match existingObj with
  | .other t => ⟨false, some (t ++ " is not a *k8sappsv1.Deployment"), .other t⟩
  | .deployment existing =>
    match desiredObj with
    | .other t => ⟨false, some (t ++ " is not a *k8sappsv1.Deployment"), .deployment existing⟩
    | .deployment desired =>
      let r := deploymentMutatorLoop desired opts existing false
      ⟨r.changed, r.err, .deployment r.existing⟩

/-- Reference trace of a mutator list: runs every mutator in list order
threading the existing object, collecting each individual `changed`
flag, stopping at the first error. -/
def stepResults (desired : Deployment) :
    List DMutateFn → Deployment → List Bool × Option String × Deployment
  | [], e => ([], none, e)
  | opt :: rest, e =>
    let r := opt desired e
    match r.err with
    | some msg => ([], some msg, r.existing)
    | none =>
      let t := stepResults desired rest r.existing
      (r.changed :: t.1, t.2.1, t.2.2)

/-! ## Map-merge, env-var and resource helpers (pkg/helper, callers under src/) -/

/-- First-match lookup in an association-list map. -/
def lookupKey : List (String × String) → String → Option String
  | [], _ => none
  | kv :: rest, k => if kv.1 = k then some kv.2 else lookupKey rest k

/-- Set key `k` to `v` in an association-list map: replaces the first
binding of `k` in place, or appends `(k, v)` when absent. -/
def setKey : List (String × String) → String → String → List (String × String)
  | [], k, v => [(k, v)]
  | kv :: rest, k, v =>
    if kv.1 = k then (k, v) :: rest else kv :: setKey rest k v

/-- Modelled from the spec: `helper.MergeMapStringString` (pkg/helper,
not under src/).  "For every key in desired, set it in existing
(overwrite); keys present only in existing are preserved. Result is the
union with desired taking precedence on conflicts. changed true iff the
merged map differs from the original."  The `updated` in/out flag is
ORed, as the callers pass a pointer to their accumulator. -/
def MergeMapStringString (updated : Bool)
    (existing desired : List (String × String)) : Bool × List (String × String) :=
  let merged := desired.foldl (fun m kv => setKey m kv.1 kv.2) existing
  (updated || decide (merged ≠ existing), merged)

/-- Modelled from the spec: `helper.CmpResources` (pkg/helper, not
under src/): "compare resource requirements structurally". -/
def CmpResources (a b : ResourceRequirements) : Bool := a == b

/-- Modelled from the spec: `helper.EnvVarFromValue` (pkg/helper, not
under src/): builds an EnvVar with the given name and literal value. -/
def EnvVarFromValue (name value : String) : EnvVar := ⟨name, value⟩

/-- Modelled from the spec: `helper.EnvVarReconciler` (pkg/helper, not
under src/).  Reconciles the single variable `envVar` from the desired
env list into the existing one, following the doc comment of
`DeploymentEnvVarReconciler`: in desired and existing but different →
update; in desired only → append; in existing only → remove. -/
def EnvVarReconciler (desired : List EnvVar) (existing : List EnvVar)
    (envVar : String) : Bool × List EnvVar :=
  match desired.find? (fun v => v.name == envVar),
        existing.find? (fun v => v.name == envVar) with
  | some dv, some ev =>
    if dv.value == ev.value then (false, existing)
    else (true, existing.map (fun v => if v.name == envVar then dv else v))
  | some dv, none => (true, existing ++ [dv])
  | none, some _ => (true, existing.filter (fun v => !(v.name == envVar)))
  | none, none => (false, existing)

/-! ## Field-level mutators (deployment.go) -/

/-- DeploymentAnnotationsMutator (lines 91-97): merges desired's object
annotations into existing's. -/
def DeploymentAnnotationsMutator (desired existing : Deployment) : MutateOutcome :=
  let r := MergeMapStringString false existing.objectMeta.metaAnnotations
    desired.objectMeta.metaAnnotations
  ⟨r.1, none, { existing with objectMeta := { metaAnnotations := r.2 } }⟩

/-- DeploymentPodTemplateLabelsMutator (lines 204-210): merges desired's
pod template labels into existing's. -/
def DeploymentPodTemplateLabelsMutator (desired existing : Deployment) : MutateOutcome :=
  let r := MergeMapStringString false existing.spec.template.labels
    desired.spec.template.labels
  ⟨r.1, none,
    { existing with spec := { existing.spec with
        template := { existing.spec.template with labels := r.2 } } }⟩

/-- DeploymentPodTemplateAnnotationsMutator (lines 265-271): merges
desired's pod template annotations into existing's. -/
def DeploymentPodTemplateAnnotationsMutator (desired existing : Deployment) : MutateOutcome :=
  let r := MergeMapStringString false existing.spec.template.templateAnnotations
    desired.spec.template.templateAnnotations
  ⟨r.1, none,
    { existing with spec := { existing.spec with
        template := { existing.spec.template with templateAnnotations := r.2 } } }⟩

/-- Replace the resources of the head container, as the assignment
`existing.Spec.Template.Spec.Containers[0].Resources = ...` does
(the caller guarantees the list is non-empty at that point). -/
def setHeadResources : List Container → ResourceRequirements → List Container
  | [], _ => []
  | c :: cs, r => { c with resources := r } :: cs

/-- Placeholder container for reading `Containers[0]` of a list that the
control flow guarantees non-empty. -/
def defaultContainer : Container :=
  ⟨"", "", [], [], ⟨[], []⟩, [], none, none⟩

/-- DeploymentContainerResourcesMutator (lines 136-158): desired must
have exactly one container (hard error otherwise, message text
abbreviated from the Go `fmt.Errorf`); an existing container count ≠ 1
causes wholesale replacement of the container list; then the first
container's resources are replaced when structurally different. -/
def DeploymentContainerResourcesMutator (desired existing : Deployment) : MutateOutcome :=
  if desired.containers.length ≠ 1 then
    ⟨false, some "desired spec.template.spec.containers length should be 1", existing⟩
  else
    let step :=
      if existing.containers.length ≠ 1 then
        (true, existing.setContainers desired.containers)
      else (false, existing)
    let ec0 := step.2.containers.headD defaultContainer
    let dc0 := desired.containers.headD defaultContainer
    if CmpResources ec0.resources dc0.resources then ⟨step.1, none, step.2⟩
    else ⟨true, none, step.2.setContainers (setHeadResources step.2.containers dc0.resources)⟩

/-- The per-container-pair env loop of `DeploymentEnvVarReconciler`
(lines 183-198), iterating positionally: runs `helper.EnvVarReconciler`
on each aligned pair of env lists, ORing the per-container flags. -/
def envSyncList (envVar : String) : List Container → List Container → Bool × List Container
  | _, [] => (false, [])
  | [], es => (false, es)
  | dc :: ds, ec :: es =>
    let r := EnvVarReconciler dc.env ec.env envVar
    let t := envSyncList envVar ds es
    (r.1 || t.1, { ec with env := r.2 } :: t.2)

/-- DeploymentEnvVarReconciler (lines 165-201): bails out with no
mutation and `false` on a container-count or init-container-count
mismatch (after logging a warning); otherwise reconciles the variable
`envVar` in each init container and each container.  The Go function
returns only a `bool` — it has no error channel at all. -/
def DeploymentEnvVarReconciler (desired existing : Deployment)
    (envVar : String) : Bool × Deployment :=
  if desired.containers.length ≠ existing.containers.length then
    (false, existing)
  else if desired.initContainers.length ≠ existing.initContainers.length then
    (false, existing)
  else
    let ics := envSyncList envVar desired.initContainers existing.initContainers
    let cs := envSyncList envVar desired.containers existing.containers
    (ics.1 || cs.1, (existing.setInitContainers ics.2).setContainers cs.2)

/-- The loop of `DeploymentArgsMutator` (lines 277-284): iterates over
desired's containers, indexing `existing.Spec.Template.Spec.Containers[i]`
without a bounds check — an out-of-range index panics (`none`). -/
def argsSync : List Container → List Container → Option (Bool × List Container)
  | [], es => some (false, es)
  | _ :: _, [] => none
  | dc :: ds, ec :: es =>
    let u := !(ec.args == dc.args)
    let ec1 := if u then { ec with args := dc.args } else ec
    (argsSync ds es).map (fun t => (u || t.1, ec1 :: t.2))

/-- DeploymentArgsMutator (lines 274-287). -/
def DeploymentArgsMutator (desired existing : Deployment) : Option MutateOutcome :=
  (argsSync desired.containers existing.containers).map
    (fun t => ⟨t.1, none, existing.setContainers t.2⟩)

/-- The loop of `DeploymentProbesMutator` (lines 293-305): same indexing
pattern as the args loop, over both probes. -/
def probesSync : List Container → List Container → Option (Bool × List Container)
  | [], es => some (false, es)
  | _ :: _, [] => none
  | dc :: ds, ec :: es =>
    let u1 := !(ec.livenessProbe == dc.livenessProbe)
    let ec1 := if u1 then { ec with livenessProbe := dc.livenessProbe } else ec
    let u2 := !(ec1.readinessProbe == dc.readinessProbe)
    let ec2 := if u2 then { ec1 with readinessProbe := dc.readinessProbe } else ec1
    (probesSync ds es).map (fun t => ((u1 || u2) || t.1, ec2 :: t.2))

/-- DeploymentProbesMutator (lines 289-308). -/
def DeploymentProbesMutator (desired existing : Deployment) : Option MutateOutcome :=
  (probesSync desired.containers existing.containers).map
    (fun t => ⟨t.1, none, existing.setContainers t.2⟩)

/-- The fixed falcon argument list of `DeploymentListenerArgsMutator`. -/
def falconArgs : List String :=
  ["bin/3scale_backend", "-s", "falcon", "start", "-e", "production",
   "-p", "3000", "-x", "/dev/stdout"]

/-- DeploymentListenerArgsMutator (lines 347-356): pins
`Containers[0].Args` to the falcon argument list; reading
`Containers[0]` of an empty list panics (`none`). -/
def DeploymentListenerArgsMutator (_desired existing : Deployment) : Option MutateOutcome :=
  match existing.containers with
  | [] => none
  | c0 :: cs =>
    if c0.args == falconArgs then some ⟨false, none, existing⟩
    else some ⟨true, none, existing.setContainers ({ c0 with args := falconArgs } :: cs)⟩

/-- removeEnvVar (lines 500-508): keeps every env var whose name differs. -/
def removeEnvVar (envVars : List EnvVar) (name : String) : List EnvVar :=
  envVars.filter (fun v => !(v.name == name))

/-- The `for envId, envVar := range ...Env` loop of
`DeploymentListenerAsyncDisableEnvMutator` (lines 374-392).  `pre` is
the already-scanned portion of the env list (unmodified, because the
Go loop returns right after its first update).  Returns `.inl newEnv`
when the loop returned early with `update = true`, or `.inr` with the
final `updateListenerWorkers` / `updateConfigRedisAsync` flags. -/
def listenerAsyncDisableScan :
    List EnvVar → List EnvVar → Bool → Bool → Sum (List EnvVar) (Bool × Bool)
  | _, [], ulw, ucra => .inr (ulw, ucra)
  | pre, v :: rest, ulw, ucra =>
    if v.name == "LISTENER_WORKERS" && v.value == "1" then
      .inl (removeEnvVar (pre ++ v :: rest) "LISTENER_WORKERS")
    else if v.name == "CONFIG_REDIS_ASYNC" && v.value == "1" then
      .inl (pre ++ { v with value := "0" } :: rest)
    else
      listenerAsyncDisableScan (pre ++ [v]) rest
        (if v.name == "LISTENER_WORKERS" then false else ulw)
        (if v.name == "CONFIG_REDIS_ASYNC" then false else ucra)

/-- DeploymentListenerAsyncDisableEnvMutator (lines 368-409): removes
`LISTENER_WORKERS` when set to "1", flips `CONFIG_REDIS_ASYNC` "1"→"0",
and otherwise appends `CONFIG_REDIS_ASYNC=0` / removes `LISTENER_WORKERS`
when they were not seen, reporting `update = true` whenever either
post-loop flag is still set.  Reads `Containers[0]` (panic on empty). -/
def DeploymentListenerAsyncDisableEnvMutator (_desired existing : Deployment) :
    Option MutateOutcome :=
  match existing.containers with
  | [] => none
  | c0 :: cs =>
    match listenerAsyncDisableScan [] c0.env true true with
    | .inl newEnv =>
      some ⟨true, none, existing.setContainers ({ c0 with env := newEnv } :: cs)⟩
    | .inr fl =>
      let update := fl.1 || fl.2
      let env1 :=
        if fl.2 then c0.env ++ [EnvVarFromValue "CONFIG_REDIS_ASYNC" "0"] else c0.env
      let env2 := if fl.1 then removeEnvVar env1 "LISTENER_WORKERS" else env1
      some ⟨update, none, existing.setContainers ({ c0 with env := env2 } :: cs)⟩

/-- The `for envId, envVar := range ...Env` loop of
`DeploymentListenerEnvMutator` (lines 417-436), same shape as the
async-disable scan: flips "0"→"1" for either variable and returns at
the first update. -/
def listenerEnvScan :
    List EnvVar → List EnvVar → Bool → Bool → Sum (List EnvVar) (Bool × Bool)
  | _, [], ulw, ucra => .inr (ulw, ucra)
  | pre, v :: rest, ulw, ucra =>
    if v.name == "LISTENER_WORKERS" && v.value == "0" then
      .inl (pre ++ { v with value := "1" } :: rest)
    else if v.name == "CONFIG_REDIS_ASYNC" && v.value == "0" then
      .inl (pre ++ { v with value := "1" } :: rest)
    else
      listenerEnvScan (pre ++ [v]) rest
        (if v.name == "LISTENER_WORKERS" then false else ulw)
        (if v.name == "CONFIG_REDIS_ASYNC" then false else ucra)

/-- DeploymentListenerEnvMutator (lines 411-454): sets
`LISTENER_WORKERS` and `CONFIG_REDIS_ASYNC` to "1", appending either
variable when absent.  Reads `Containers[0]` (panic on empty). -/
def DeploymentListenerEnvMutator (_desired existing : Deployment) :
    Option MutateOutcome :=
  match existing.containers with
  | [] => none
  | c0 :: cs =>
    match listenerEnvScan [] c0.env true true with
    | .inl newEnv =>
      some ⟨true, none, existing.setContainers ({ c0 with env := newEnv } :: cs)⟩
    | .inr fl =>
      let update := fl.1 || fl.2
      let env1 :=
        if fl.2 then c0.env ++ [EnvVarFromValue "CONFIG_REDIS_ASYNC" "1"] else c0.env
      let env2 :=
        if fl.1 then env1 ++ [EnvVarFromValue "LISTENER_WORKERS" "1"] else env1
      some ⟨update, none, existing.setContainers ({ c0 with env := env2 } :: cs)⟩

/-- The `for i := range desired...InitContainers` loop of
`DeploymentPodInitContainerMutator` (lines 521-531), run after the trim:
appends the missing desired entries and replaces positionally-unequal
ones.  (After the trim the existing list is never longer than the
desired list, so the `([], _ :: _)` case is unreachable.) -/
def initContainersLoop : List Container → List Container → Bool × List Container
  | [], es => (false, es)
  | dc :: ds, [] =>
    let t := initContainersLoop ds []
    (true, dc :: t.2)
  | dc :: ds, ec :: es =>
    let t := initContainersLoop ds es
    if ec = dc then (t.1, ec :: t.2) else (true, dc :: t.2)

/-- DeploymentPodInitContainerMutator (lines 511-534): trims excess
existing init containers, then appends missing and replaces mismatched
ones so the lists correspond exactly. -/
def DeploymentPodInitContainerMutator (desired existing : Deployment) : MutateOutcome :=
  let dIC := desired.initContainers
  let step :=
    if existing.initContainers.length > dIC.length then
      (true, existing.initContainers.take dIC.length)
    else (false, existing.initContainers)
  let t := initContainersLoop dIC step.2
  ⟨step.1 || t.1, none, existing.setInitContainers t.2⟩

/-- volumeExists (lines 574-581). -/
def volumeExists (volumes : List Volume) (name : String) : Bool :=
  volumes.any (fun v => v.name == name)

/-- volumeMountExists (lines 600-607). -/
def volumeMountExists (volumeMounts : List VolumeMount) (name : String) : Bool :=
  volumeMounts.any (fun vm => vm.name == name)

/-- syncVolumeMounts (lines 584-597): appends each desired mount whose
name is absent from the *original* existing mounts (the membership test
never sees the appended entries). -/
def syncVolumeMounts (existingMounts desiredMounts : List VolumeMount) :
    Bool × List VolumeMount :=
  desiredMounts.foldl
    (fun acc dm =>
      if volumeMountExists existingMounts dm.name then acc else (true, acc.2 ++ [dm]))
    (false, existingMounts)

/-- The container loops of `DeploymentSyncVolumesAndMountsMutator`
(lines 553-568): for each index of the existing list, syncs its mounts
against `desired...[cIdx]` — indexing desired without a bounds check,
so a shorter desired list panics (`none`). -/
def syncMountsList : List Container → List Container → Option (Bool × List Container)
  | [], _ => some (false, [])
  | _ :: _, [] => none
  | ec :: es, dc :: ds =>
    let r := syncVolumeMounts ec.volumeMounts dc.volumeMounts
    let ec1 := if r.1 then { ec with volumeMounts := r.2 } else ec
    (syncMountsList es ds).map (fun t => (r.1 || t.1, ec1 :: t.2))

/-- DeploymentSyncVolumesAndMountsMutator (lines 536-571): appends
desired volumes missing (by name) from the growing existing volume
list, then additively syncs the mounts of every container and init
container.  (The Go nil-slice initialization of Volumes has no
observable effect in the list model.)  `addMissingVolumes` is the
volume loop of lines 545-550. -/
def addMissingVolumes (acc : Bool × List Volume) (ds : List Volume) : Bool × List Volume :=
  ds.foldl
    (fun a dv => if volumeExists a.2 dv.name then a else (true, a.2 ++ [dv])) acc

def DeploymentSyncVolumesAndMountsMutator (desired existing : Deployment) :
    Option MutateOutcome :=
  let vols := addMissingVolumes (false, existing.volumes) desired.volumes
  match syncMountsList existing.containers desired.containers,
        syncMountsList existing.initContainers desired.initContainers with
  | some tc, some ti =>
    some ⟨vols.1 || tc.1 || ti.1, none,
      (((existing.setVolumes vols.2).setContainers tc.2).setInitContainers ti.2)⟩
  | _, _ => none

/-- Remove the first volume with the given name (the inner
`for idx, volume := range ...; break` loop of lines 619-626). -/
def removeFirstVolumeByName : List Volume → String → List Volume
  | [], _ => []
  | v :: rest, n => if v.name == n then rest else v :: removeFirstVolumeByName rest n

/-- Remove the first volume mount with the given name (the inner
`for vIdx, volumeMount := range ...; break` loops of lines 633-639 and
647-653). -/
def removeFirstMountByName : List VolumeMount → String → List VolumeMount
  | [], _ => []
  | m :: rest, n => if m.name == n then rest else m :: removeFirstMountByName rest n

/-- The volume-removal loop of lines 618-627: for each slated name,
removes the first matching volume from the running list and records
that a volume was removed. -/
def removeVolumesLoop (names : List String) (vs : List Volume) : Bool × List Volume :=
  names.foldl
    (fun acc n =>
      if volumeExists acc.2 n then (true, removeFirstVolumeByName acc.2 n) else acc)
    (false, vs)

/-- The per-container mount-removal loop of lines 632-640: for each
slated name, drops the first matching mount. -/
def stripMountsLoop (names : List String) (ms : List VolumeMount) : List VolumeMount :=
  names.foldl (fun acc n => removeFirstMountByName acc n) ms

/-- DeploymentRemoveTLSVolumesAndMountsMutator (lines 609-664): removes
the volumes named "writable-tls" and "tls-secret" (first occurrence of
each) from the pod spec; only when at least one volume was removed does
it also strip the matching mounts from every container and init
container; `changed` reflects volume removal alone.  (The Go nil-check
on Volumes coincides with the empty-list behaviour.) -/
def DeploymentRemoveTLSVolumesAndMountsMutator (_desired existing : Deployment) :
    MutateOutcome :=
  let volumeNamesToRemove := ["writable-tls", "tls-secret"]
  let r := removeVolumesLoop volumeNamesToRemove existing.volumes
  if r.1 then
    let newCs := existing.containers.map
      (fun c => { c with volumeMounts := stripMountsLoop volumeNamesToRemove c.volumeMounts })
    let newICs := existing.initContainers.map
      (fun c => { c with volumeMounts := stripMountsLoop volumeNamesToRemove c.volumeMounts })
    ⟨true, none, (((existing.setVolumes r.2).setContainers newCs).setInitContainers newICs)⟩
  else ⟨false, none, existing⟩

/-! ## Sample objects used by witnesses -/

/-- An empty deployment used as a concrete test fixture. -/
def sampleDeployment : Deployment := ⟨⟨[]⟩, ⟨none, ⟨[], [], ⟨[], [], [], ""⟩⟩⟩⟩

/-- Fixture container with the given args, env and mounts. -/
def sampleContainer (args : List String) (env : List EnvVar)
    (mounts : List VolumeMount) : Container :=
  ⟨"c", "img", args, env, ⟨[], []⟩, mounts, none, none⟩

/-- Fixture deployment with given containers, init containers and volumes. -/
def sampleWith (cs ics : List Container) (vols : List Volume) : Deployment :=
  ⟨⟨[]⟩, ⟨none, ⟨[], [], ⟨cs, ics, vols, ""⟩⟩⟩⟩

/-- Fixture mutator that reports a change and leaves existing as is. -/
def sampleChangeMutator : DMutateFn := fun _ e => ⟨true, none, e⟩

/-- Fixture mutator that reports no change. -/
def sampleNoopMutator : DMutateFn := fun _ e => ⟨false, none, e⟩

/-- Fixture mutator that fails. -/
def sampleErrMutator : DMutateFn := fun _ e => ⟨false, some "pipeline boom", e⟩

/-! ## C1: pipeline composition -/

/-- The mutator loop agrees with the reference trace: on a clean trace
it ORs the collected flags into the accumulator; on a failing trace it
returns the first error with `changed = false`. -/
theorem deploymentMutatorLoop_eq_stepResults (d : Deployment) :
    ∀ (opts : List DMutateFn) (e : Deployment) (u : Bool),
      deploymentMutatorLoop d opts e u =
        (match stepResults d opts e with
         | (bs, none, e1) => ⟨u || bs.any id, none, e1⟩
         | (_, some m, e1) => ⟨false, some m, e1⟩) := by
  intro opts
  induction opts with
  | nil => intro e u; simp [deploymentMutatorLoop, stepResults]
  | cons opt rest ih =>
    intro e u
    show (match (opt d e).err with
          | some msg => MutateOutcome.mk false (some msg) (opt d e).existing
          | none => deploymentMutatorLoop d rest (opt d e).existing (u || (opt d e).changed)) = _
    cases herr : (opt d e).err with
    | some msg =>
      simp only [stepResults, herr]
    | none =>
      simp only [stepResults, herr, ih]
      rcases h2 : stepResults d rest (opt d e).existing with ⟨bs, er, e1⟩
      cases er with
      | none => simp [List.any_cons, Bool.or_assoc]
      | some m => simp

/-- Running a clean list ahead of further mutators just advances the
state and the accumulated flag. -/
theorem deploymentMutatorLoop_append (d : Deployment) :
    ∀ (pre opts : List DMutateFn) (e e1 : Deployment) (bs : List Bool) (u : Bool),
      stepResults d pre e = (bs, none, e1) →
      deploymentMutatorLoop d (pre ++ opts) e u =
        deploymentMutatorLoop d opts e1 (u || bs.any id) := by
  intro pre
  induction pre with
  | nil =>
    intro opts e e1 bs u h
    simp only [stepResults, Prod.mk.injEq] at h
    obtain ⟨hbs, -, he⟩ := h
    subst hbs; subst he
    simp
  | cons opt rest ih =>
    intro opts e e1 bs u h
    cases herr : (opt d e).err with
    | some msg =>
      simp only [stepResults, herr, Prod.mk.injEq] at h
      exact absurd h.2.1 (by simp)
    | none =>
      simp only [stepResults, herr] at h
      rcases h2 : stepResults d rest (opt d e).existing with ⟨bs', er', e1'⟩
      rw [h2] at h
      simp only [Prod.mk.injEq] at h
      obtain ⟨hbs, her, he1⟩ := h
      cases er' with
      | some m => exact absurd her (by simp)
      | none =>
        subst he1
        have goalstep : deploymentMutatorLoop d ((opt :: rest) ++ opts) e u =
            deploymentMutatorLoop d (rest ++ opts) (opt d e).existing
              (u || (opt d e).changed) := by
          show (match (opt d e).err with
                | some msg => MutateOutcome.mk false (some msg) (opt d e).existing
                | none => deploymentMutatorLoop d (rest ++ opts) (opt d e).existing
                    (u || (opt d e).changed)) = _
          rw [herr]
        rw [goalstep, ih opts (opt d e).existing e1' bs' (u || (opt d e).changed) h2,
          ← hbs]
        simp [List.any_cons, Bool.or_assoc]

/-- C1: over an ordered list of DMutateFns, when no mutator errors the
pipeline's `changed` is the logical OR of the individual mutators'
`changed` flags collected in list order (the reference trace
`stepResults`); when a mutator errors, the mutators after it are not
executed (the result does not depend on them) and the error is returned
unmodified, with the existing state as the failing mutator left it. -/
theorem DeploymentMutator_pipeline_spec (d e : Deployment) (opts : List DMutateFn)
    (bs : List Bool) (e1 : Deployment) :
    (stepResults d opts e = (bs, none, e1) →
      DeploymentMutator opts (.deployment e) (.deployment d) =
        ⟨bs.any id, none, .deployment e1⟩) ∧
    (∀ (pre post : List DMutateFn) (f : DMutateFn) (msg : String),
      stepResults d pre e = (bs, none, e1) → (f d e1).err = some msg →
      DeploymentMutator (pre ++ f :: post) (.deployment e) (.deployment d) =
        ⟨false, some msg, .deployment (f d e1).existing⟩) := by
  constructor
  · intro h
    show (let r := deploymentMutatorLoop d opts e false
          PipelineOutcome.mk r.changed r.err (.deployment r.existing)) = _
    rw [deploymentMutatorLoop_eq_stepResults d opts e false, h]
    simp
  · intro pre post f msg hpre herr
    show (let r := deploymentMutatorLoop d (pre ++ f :: post) e false
          PipelineOutcome.mk r.changed r.err (.deployment r.existing)) = _
    rw [deploymentMutatorLoop_append d pre (f :: post) e e1 bs false hpre]
    show (let r :=
            (match (f d e1).err with
             | some m => MutateOutcome.mk false (some m) (f d e1).existing
             | none => deploymentMutatorLoop d post (f d e1).existing
                 ((false || bs.any id) || (f d e1).changed))
          PipelineOutcome.mk r.changed r.err (.deployment r.existing)) = _
    rw [herr]

/-- Witness for C1 at concrete inputs: a no-op then a changing mutator
yield `changed = true`; a changing mutator followed by a failing one
aborts with the error, skipping the trailing mutator. -/
theorem DeploymentMutator_pipeline_spec_witness :
    DeploymentMutator [sampleNoopMutator, sampleChangeMutator]
        (.deployment sampleDeployment) (.deployment sampleDeployment) =
      ⟨true, none, .deployment sampleDeployment⟩ ∧
    DeploymentMutator [sampleChangeMutator, sampleErrMutator, sampleNoopMutator]
        (.deployment sampleDeployment) (.deployment sampleDeployment) =
      ⟨false, some "pipeline boom", .deployment sampleDeployment⟩ := by
  constructor
  · exact (DeploymentMutator_pipeline_spec sampleDeployment sampleDeployment
      [sampleNoopMutator, sampleChangeMutator] [false, true] sampleDeployment).1 rfl
  · exact (DeploymentMutator_pipeline_spec sampleDeployment sampleDeployment
      [] [true] sampleDeployment).2 [sampleChangeMutator] [sampleNoopMutator]
      sampleErrMutator "pipeline boom" rfl rfl

/-! ## C5: type mismatch aborts before any mutator runs -/

/-- C5: when either object is not a Deployment, the pipeline returns a
non-nil error with `changed = false`, leaves the existing object
untouched, and the composed mutators are irrelevant (the result equals
that of the empty pipeline). -/
theorem DeploymentMutator_type_mismatch (opts : List DMutateFn)
    (eo dobj : KubernetesObject)
    (h : eo.isDeploymentKind = false ∨ dobj.isDeploymentKind = false) :
    (DeploymentMutator opts eo dobj).changed = false ∧
    (DeploymentMutator opts eo dobj).err.isSome = true ∧
    DeploymentMutator opts eo dobj = DeploymentMutator [] eo dobj ∧
    (DeploymentMutator opts eo dobj).existingObj = eo := by
  cases eo with
  | other t => simp [DeploymentMutator]
  | deployment e =>
    cases dobj with
    | other t => simp [DeploymentMutator]
    | deployment d => simp [KubernetesObject.isDeploymentKind] at h

/-- Witness for C5: a Service handed to a deployment pipeline with one
real mutator aborts with an error and no change. -/
theorem DeploymentMutator_type_mismatch_witness :
    (DeploymentMutator [sampleChangeMutator] (.other "*v1.Service")
        (.deployment sampleDeployment)).changed = false ∧
    (DeploymentMutator [sampleChangeMutator] (.other "*v1.Service")
        (.deployment sampleDeployment)).err.isSome = true ∧
    DeploymentMutator [sampleChangeMutator] (.other "*v1.Service")
        (.deployment sampleDeployment) =
      DeploymentMutator [] (.other "*v1.Service") (.deployment sampleDeployment) ∧
    (DeploymentMutator [sampleChangeMutator] (.other "*v1.Service")
        (.deployment sampleDeployment)).existingObj = .other "*v1.Service" :=
  DeploymentMutator_type_mismatch [sampleChangeMutator] (.other "*v1.Service")
    (.deployment sampleDeployment) (Or.inl rfl)

/-! ## Accessor/updater simp lemmas -/

@[simp] theorem containers_setContainers (e : Deployment) (cs : List Container) :
    (e.setContainers cs).containers = cs := rfl

@[simp] theorem initContainers_setContainers (e : Deployment) (cs : List Container) :
    (e.setContainers cs).initContainers = e.initContainers := rfl

@[simp] theorem volumes_setContainers (e : Deployment) (cs : List Container) :
    (e.setContainers cs).volumes = e.volumes := rfl

@[simp] theorem initContainers_setInitContainers (e : Deployment) (cs : List Container) :
    (e.setInitContainers cs).initContainers = cs := rfl

@[simp] theorem containers_setInitContainers (e : Deployment) (cs : List Container) :
    (e.setInitContainers cs).containers = e.containers := rfl

@[simp] theorem volumes_setInitContainers (e : Deployment) (cs : List Container) :
    (e.setInitContainers cs).volumes = e.volumes := rfl

@[simp] theorem volumes_setVolumes (e : Deployment) (vs : List Volume) :
    (e.setVolumes vs).volumes = vs := rfl

@[simp] theorem containers_setVolumes (e : Deployment) (vs : List Volume) :
    (e.setVolumes vs).containers = e.containers := rfl

@[simp] theorem initContainers_setVolumes (e : Deployment) (vs : List Volume) :
    (e.setVolumes vs).initContainers = e.initContainers := rfl

/-! ## C2: the listener env mutators are not idempotent (code bug) -/

/-- Run a mutator twice (two consecutive reconcile passes on the same
desired object), returning both `changed` flags. -/
def runTwiceChanged (m : Deployment → Deployment → Option MutateOutcome)
    (d e : Deployment) : Option (Bool × Bool) :=
  (m d e).bind fun r1 => (m d r1.existing).map fun r2 => (r1.changed, r2.changed)

/-- C2 (code bug evidence): both listener-mode env mutators report
`changed = true` on the second of two consecutive calls, violating the
idempotence contract.  `DeploymentListenerAsyncDisableEnvMutator` on a
container with an empty env appends `CONFIG_REDIS_ASYNC=0` and then
keeps reporting `true` forever, because its `updateListenerWorkers`
flag stays `true` whenever `LISTENER_WORKERS` is absent — which is that
mutator's own goal state.  `DeploymentListenerEnvMutator` on
`LISTENER_WORKERS=0` fixes the value on the first call and only appends
`CONFIG_REDIS_ASYNC=1` on the second, because the loop returns at its
first individual update. -/
theorem listenerEnvMutators_not_idempotent :
    runTwiceChanged DeploymentListenerAsyncDisableEnvMutator sampleDeployment
      (sampleWith [sampleContainer [] [] []] [] []) = some (true, true) ∧
    runTwiceChanged DeploymentListenerEnvMutator sampleDeployment
      (sampleWith [sampleContainer [] [⟨"LISTENER_WORKERS", "0"⟩] []] [] []) =
      some (true, true) := by
  exact ⟨rfl, rfl⟩

/-! ## C3: shape mismatch is a silent no-op -/

/-- C3: whenever the container counts or the init-container counts of
desired and existing disagree, `DeploymentEnvVarReconciler` leaves
existing untouched and returns `false` (the Go function has no error
channel, so no error can be signalled). -/
theorem DeploymentEnvVarReconciler_shape_mismatch (d e : Deployment) (envVar : String)
    (h : d.containers.length ≠ e.containers.length ∨
         d.initContainers.length ≠ e.initContainers.length) :
    DeploymentEnvVarReconciler d e envVar = (false, e) := by
  rcases h with h | h
  · simp [DeploymentEnvVarReconciler, h]
  · by_cases h1 : d.containers.length = e.containers.length
    · simp [DeploymentEnvVarReconciler, h1, h]
    · simp [DeploymentEnvVarReconciler, h1]

/-- Witness for C3: desired with two containers against existing with
one container is left untouched with `changed = false`. -/
theorem DeploymentEnvVarReconciler_shape_mismatch_witness :
    DeploymentEnvVarReconciler
        (sampleWith [sampleContainer [] [] [], sampleContainer [] [] []] [] [])
        (sampleWith [sampleContainer [] [] []] [] []) "SOME_VAR" =
      (false, sampleWith [sampleContainer [] [] []] [] []) :=
  DeploymentEnvVarReconciler_shape_mismatch _ _ "SOME_VAR" (Or.inl (by decide))

/-! ## C4: container-resources mutator -/

/-- C4: a desired container count ≠ 1 is a hard error leaving existing
untouched; with exactly one desired container, an existing count ≠ 1
causes wholesale container-list replacement reported as changed; with
matching counts only the first container's resources are replaced, and
only when structurally different. -/
theorem DeploymentContainerResourcesMutator_spec (d e : Deployment) :
    (d.containers.length ≠ 1 →
      DeploymentContainerResourcesMutator d e =
        ⟨false, some "desired spec.template.spec.containers length should be 1", e⟩) ∧
    (d.containers.length = 1 → e.containers.length ≠ 1 →
      DeploymentContainerResourcesMutator d e =
        ⟨true, none, e.setContainers d.containers⟩) ∧
    (d.containers.length = 1 → e.containers.length = 1 →
      DeploymentContainerResourcesMutator d e =
        (if CmpResources (e.containers.headD defaultContainer).resources
              (d.containers.headD defaultContainer).resources
         then ⟨false, none, e⟩
         else ⟨true, none,
           e.setContainers (setHeadResources e.containers
             (d.containers.headD defaultContainer).resources)⟩)) := by
  refine ⟨fun h => ?_, fun h1 h2 => ?_, fun h1 h2 => ?_⟩
  · simp [DeploymentContainerResourcesMutator, h]
  · simp [DeploymentContainerResourcesMutator, h1, h2, CmpResources]
  · simp [DeploymentContainerResourcesMutator, h1, h2]

/-- Witness for C4: all three branches at concrete inputs — two desired
containers error out; a desired singleton against an empty existing
recreates the container list; matching singletons with different
resources replace just the resources. -/
theorem DeploymentContainerResourcesMutator_spec_witness :
    (DeploymentContainerResourcesMutator
        (sampleWith [sampleContainer [] [] [], sampleContainer [] [] []] [] [])
        sampleDeployment =
      ⟨false, some "desired spec.template.spec.containers length should be 1",
        sampleDeployment⟩) ∧
    (DeploymentContainerResourcesMutator
        (sampleWith [sampleContainer [] [] []] [] []) sampleDeployment =
      ⟨true, none, sampleDeployment.setContainers [sampleContainer [] [] []]⟩) ∧
    (DeploymentContainerResourcesMutator
        (sampleWith [{ sampleContainer [] [] [] with
          resources := ⟨[("cpu", "2")], []⟩ }] [] [])
        (sampleWith [sampleContainer [] [] []] [] []) =
      ⟨true, none,
        (sampleWith [sampleContainer [] [] []] [] []).setContainers
          (setHeadResources [sampleContainer [] [] []] ⟨[("cpu", "2")], []⟩)⟩) := by
  refine ⟨?_, ?_, ?_⟩
  · exact (DeploymentContainerResourcesMutator_spec _ _).1 (by decide)
  · exact (DeploymentContainerResourcesMutator_spec _ _).2.1 (by decide) (by decide)
  · exact ((DeploymentContainerResourcesMutator_spec _ _).2.2 (by decide)
      (by decide)).trans (by decide)

/-! ## C9: init-container full sync -/

/-- After the trim, the loop makes the existing list equal desired's. -/
theorem initContainersLoop_result :
    ∀ ds es : List Container, es.length ≤ ds.length →
      (initContainersLoop ds es).2 = ds := by
  intro ds
  induction ds with
  | nil =>
    intro es h
    have hnil : es = [] := List.eq_nil_of_length_eq_zero (Nat.le_zero.mp h)
    subst hnil; rfl
  | cons dc ds ih =>
    intro es h
    cases es with
    | nil =>
      simp only [initContainersLoop]
      rw [ih [] (by simp)]
    | cons ec es' =>
      simp only [initContainersLoop]
      by_cases hec : ec = dc
      · simp [hec, ih es' (Nat.succ_le_succ_iff.mp h)]
      · simp [hec, ih es' (Nat.succ_le_succ_iff.mp h)]

/-- The loop reports a change exactly when the two lists differ. -/
theorem initContainersLoop_flag :
    ∀ ds es : List Container, es.length ≤ ds.length →
      ((initContainersLoop ds es).1 = true ↔ es ≠ ds) := by
  intro ds
  induction ds with
  | nil =>
    intro es h
    have hnil : es = [] := List.eq_nil_of_length_eq_zero (Nat.le_zero.mp h)
    subst hnil; simp [initContainersLoop]
  | cons dc ds ih =>
    intro es h
    cases es with
    | nil => simp [initContainersLoop]
    | cons ec es' =>
      simp only [initContainersLoop]
      by_cases hec : ec = dc
      · subst hec
        simp [ih es' (Nat.succ_le_succ_iff.mp h), List.cons.injEq]
      · simp [hec, List.cons.injEq]

/-- C9: the init-container mutator enforces exact correspondence — the
resulting init-container list equals desired's, nothing else of the
existing Deployment changes, no error is possible, and `changed` is
reported exactly when the two lists differed before the call. -/
theorem DeploymentPodInitContainerMutator_full_sync (d e : Deployment) :
    DeploymentPodInitContainerMutator d e =
      ⟨decide (e.initContainers ≠ d.initContainers), none,
        e.setInitContainers d.initContainers⟩ := by
  by_cases hlen : e.initContainers.length > d.initContainers.length
  · have hr := initContainersLoop_result d.initContainers
      (e.initContainers.take d.initContainers.length) (by simp)
    have hne : e.initContainers ≠ d.initContainers := by
      intro hEq
      rw [hEq] at hlen
      exact Nat.lt_irrefl _ hlen
    simp [DeploymentPodInitContainerMutator, hlen, hr, hne]
  · have hle : e.initContainers.length ≤ d.initContainers.length :=
      Nat.le_of_not_lt hlen
    have hr := initContainersLoop_result d.initContainers e.initContainers hle
    have hflag := initContainersLoop_flag d.initContainers e.initContainers hle
    have hflagEq : (initContainersLoop d.initContainers e.initContainers).1
        = decide (e.initContainers ≠ d.initContainers) := by
      by_cases hEq : e.initContainers = d.initContainers
      · cases hb : (initContainersLoop d.initContainers e.initContainers).1 with
        | false => simp [hEq]
        | true => exact absurd hEq (hflag.mp hb)
      · have hd : decide (e.initContainers ≠ d.initContainers) = true :=
          decide_eq_true hEq
        rw [hd]
        exact hflag.mpr hEq
    simp [DeploymentPodInitContainerMutator, hlen, hr, hflagEq]

/-! ## C10: implicit shape preconditions (out-of-range accesses) -/

/-- The args loop panics exactly when existing has fewer containers. -/
theorem argsSync_isSome :
    ∀ ds es : List Container,
      (argsSync ds es).isSome = decide (ds.length ≤ es.length) := by
  intro ds
  induction ds with
  | nil => intro es; simp [argsSync]
  | cons dc ds ih =>
    intro es
    cases es with
    | nil => simp [argsSync]
    | cons ec es' => simp [argsSync, ih es', Nat.succ_le_succ_iff]

/-- The probes loop panics exactly when existing has fewer containers. -/
theorem probesSync_isSome :
    ∀ ds es : List Container,
      (probesSync ds es).isSome = decide (ds.length ≤ es.length) := by
  intro ds
  induction ds with
  | nil => intro es; simp [probesSync]
  | cons dc ds ih =>
    intro es
    cases es with
    | nil => simp [probesSync]
    | cons ec es' => simp [probesSync, ih es', Nat.succ_le_succ_iff]

/-- The mount-sync loop panics exactly when desired has fewer entries
than existing. -/
theorem syncMountsList_isSome :
    ∀ es ds : List Container,
      (syncMountsList es ds).isSome = decide (es.length ≤ ds.length) := by
  intro es
  induction es with
  | nil => intro ds; simp [syncMountsList]
  | cons ec es' ih =>
    intro ds
    cases ds with
    | nil => simp [syncMountsList]
    | cons dc ds' => simp [syncMountsList, ih ds', Nat.succ_le_succ_iff]

/-- C10: the four mutators that index container lists without bounds
checks are total exactly on their implicit shape preconditions: under
the precondition they return normally with a nil error (`some none`
error projection), and on any input violating it they perform an
out-of-range access (modelled as `none`, a Go panic) rather than
returning an error. -/
theorem mutators_index_bounds (d e : Deployment) :
    ((DeploymentArgsMutator d e).map MutateOutcome.err =
      if d.containers.length ≤ e.containers.length then some none else none) ∧
    ((DeploymentProbesMutator d e).map MutateOutcome.err =
      if d.containers.length ≤ e.containers.length then some none else none) ∧
    ((DeploymentListenerArgsMutator d e).map MutateOutcome.err =
      if 0 < e.containers.length then some none else none) ∧
    ((DeploymentSyncVolumesAndMountsMutator d e).map MutateOutcome.err =
      if e.containers.length ≤ d.containers.length ∧
          e.initContainers.length ≤ d.initContainers.length
        then some none else none) := by
  refine ⟨?_, ?_, ?_, ?_⟩
  · have hs := argsSync_isSome d.containers e.containers
    cases h1 : argsSync d.containers e.containers with
    | none =>
      rw [h1] at hs
      have hp := of_decide_eq_false hs.symm
      simp [DeploymentArgsMutator, h1, hp]
    | some t =>
      rw [h1] at hs
      have hp := of_decide_eq_true hs.symm
      simp [DeploymentArgsMutator, h1, hp]
  · have hs := probesSync_isSome d.containers e.containers
    cases h1 : probesSync d.containers e.containers with
    | none =>
      rw [h1] at hs
      have hp := of_decide_eq_false hs.symm
      simp [DeploymentProbesMutator, h1, hp]
    | some t =>
      rw [h1] at hs
      have hp := of_decide_eq_true hs.symm
      simp [DeploymentProbesMutator, h1, hp]
  · cases hc : e.containers with
    | nil => simp [DeploymentListenerArgsMutator, hc]
    | cons c0 cs =>
      simp only [DeploymentListenerArgsMutator, hc]
      split
      · simp
      · simp
  · have hA := syncMountsList_isSome e.containers d.containers
    have hB := syncMountsList_isSome e.initContainers d.initContainers
    cases h1 : syncMountsList e.containers d.containers with
    | none =>
      rw [h1] at hA
      have hpA := of_decide_eq_false hA.symm
      simp [DeploymentSyncVolumesAndMountsMutator, h1, hpA]
    | some tc =>
      rw [h1] at hA
      have hpA := of_decide_eq_true hA.symm
      cases h2 : syncMountsList e.initContainers d.initContainers with
      | none =>
        rw [h2] at hB
        have hpB := of_decide_eq_false hB.symm
        simp [DeploymentSyncVolumesAndMountsMutator, h1, h2, hpB]
      | some ti =>
        rw [h2] at hB
        have hpB := of_decide_eq_true hB.symm
        simp [DeploymentSyncVolumesAndMountsMutator, h1, h2, hpA, hpB]

/-! ## C6: volume / volume-mount sync is additive only -/

theorem volumeExists_append (a b : List Volume) (n : String) :
    volumeExists (a ++ b) n = (volumeExists a n || volumeExists b n) := by
  simp [volumeExists, List.any_append]

theorem volumeMountExists_append (a b : List VolumeMount) (n : String) :
    volumeMountExists (a ++ b) n = (volumeMountExists a n || volumeMountExists b n) := by
  simp [volumeMountExists, List.any_append]

/-- The volume loop only appends: names present in the accumulator stay
present, and every desired volume's name is present afterwards. -/
theorem addMissingVolumes_spec :
    ∀ (ds : List Volume) (acc : Bool × List Volume),
      (∀ n, volumeExists acc.2 n = true →
        volumeExists (addMissingVolumes acc ds).2 n = true) ∧
      (∀ v ∈ ds, volumeExists (addMissingVolumes acc ds).2 v.name = true) := by
  intro ds
  induction ds with
  | nil => intro acc; exact ⟨fun n h => h, by simp⟩
  | cons v0 ds ih =>
    intro acc
    by_cases hv : volumeExists acc.2 v0.name = true
    · have hfold : addMissingVolumes acc (v0 :: ds) = addMissingVolumes acc ds := by
        simp [addMissingVolumes, List.foldl_cons, hv]
      refine ⟨fun n h => ?_, fun v hvmem => ?_⟩
      · rw [hfold]; exact (ih acc).1 n h
      · rw [hfold]
        rcases List.mem_cons.mp hvmem with hv0 | hmem
        · subst hv0; exact (ih acc).1 v.name hv
        · exact (ih acc).2 v hmem
    · have hfold : addMissingVolumes acc (v0 :: ds) =
          addMissingVolumes (true, acc.2 ++ [v0]) ds := by
        simp only [addMissingVolumes, List.foldl_cons, hv, if_false,
          Bool.false_eq_true, ite_false]
      have hmono : ∀ n, volumeExists (acc.2 ++ [v0]) n = true →
          volumeExists (addMissingVolumes (true, acc.2 ++ [v0]) ds).2 n = true :=
        (ih (true, acc.2 ++ [v0])).1
      refine ⟨fun n h => ?_, fun v hvmem => ?_⟩
      · rw [hfold]
        exact hmono n (by rw [volumeExists_append, h]; rfl)
      · rw [hfold]
        rcases List.mem_cons.mp hvmem with hv0 | hmem
        · subst hv0
          exact hmono v.name (by rw [volumeExists_append]; simp [volumeExists])
        · exact (ih (true, acc.2 ++ [v0])).2 v hmem

/-- The mount loop of `syncVolumeMounts`, generalized over the
accumulator: it only appends, and afterwards every desired mount name
is present (the membership test runs against the original existing
mounts `em`, assumed contained in the accumulator). -/
theorem syncVolumeMounts_fold_spec (em : List VolumeMount) :
    ∀ (dm : List VolumeMount) (acc : Bool × List VolumeMount),
      (∀ n, volumeMountExists em n = true → volumeMountExists acc.2 n = true) →
      (∀ n, volumeMountExists acc.2 n = true →
        volumeMountExists
          (dm.foldl (fun a m =>
            if volumeMountExists em m.name then a else (true, a.2 ++ [m])) acc).2 n
          = true) ∧
      (∀ m ∈ dm,
        volumeMountExists
          (dm.foldl (fun a m =>
            if volumeMountExists em m.name then a else (true, a.2 ++ [m])) acc).2 m.name
          = true) := by
  intro dm
  induction dm with
  | nil => intro acc hem; exact ⟨fun n h => h, by simp⟩
  | cons m0 dm ih =>
    intro acc hem
    by_cases hm : volumeMountExists em m0.name = true
    · have hfold : ∀ a : Bool × List VolumeMount,
          ((m0 :: dm).foldl (fun a m =>
            if volumeMountExists em m.name then a else (true, a.2 ++ [m])) a) =
          (dm.foldl (fun a m =>
            if volumeMountExists em m.name then a else (true, a.2 ++ [m])) a) := by
        intro a
        by_cases hm0 : volumeMountExists em m0.name = true
        · simp [List.foldl_cons, hm0]
        · exact absurd hm hm0
      refine ⟨fun n h => ?_, fun m hmem => ?_⟩
      · rw [hfold acc]; exact (ih acc hem).1 n h
      · rw [hfold acc]
        rcases List.mem_cons.mp hmem with hm0 | hrest
        · rw [hm0]
          exact (ih acc hem).1 m0.name (hem m0.name hm)
        · exact (ih acc hem).2 m hrest
    · have hfold : ((m0 :: dm).foldl (fun a m =>
            if volumeMountExists em m.name then a else (true, a.2 ++ [m])) acc) =
          (dm.foldl (fun a m =>
            if volumeMountExists em m.name then a else (true, a.2 ++ [m]))
            (true, acc.2 ++ [m0])) := by
        simp only [List.foldl_cons, hm, Bool.false_eq_true, ite_false]
      have hem' : ∀ n, volumeMountExists em n = true →
          volumeMountExists (acc.2 ++ [m0]) n = true := by
        intro n h
        rw [volumeMountExists_append, hem n h]; rfl
      refine ⟨fun n h => ?_, fun m hmem => ?_⟩
      · rw [hfold]
        exact (ih (true, acc.2 ++ [m0]) hem').1 n
          (by rw [volumeMountExists_append, h]; rfl)
      · rw [hfold]
        rcases List.mem_cons.mp hmem with hm0 | hrest
        · rw [hm0]
          exact (ih (true, acc.2 ++ [m0]) hem').1 m0.name
            (by rw [volumeMountExists_append]; simp [volumeMountExists])
        · exact (ih (true, acc.2 ++ [m0]) hem').2 m hrest

/-- Per-container additive property of the mount-sync result. -/
theorem syncVolumeMounts_spec (em dm : List VolumeMount) :
    (∀ n, volumeMountExists em n = true →
      volumeMountExists (syncVolumeMounts em dm).2 n = true) ∧
    (∀ m ∈ dm, volumeMountExists (syncVolumeMounts em dm).2 m.name = true) :=
  syncVolumeMounts_fold_spec em dm (false, em) (fun _ h => h)

/-- Once the mount loop has recorded a change, the flag stays set. -/
theorem syncVolumeMounts_fold_flag_mono (em : List VolumeMount) :
    ∀ (dm : List VolumeMount) (acc : Bool × List VolumeMount), acc.1 = true →
      (dm.foldl (fun a m =>
        if volumeMountExists em m.name then a else (true, a.2 ++ [m])) acc).1 = true := by
  intro dm
  induction dm with
  | nil => intro acc h; exact h
  | cons m0 dm ih =>
    intro acc h
    by_cases hm : volumeMountExists em m0.name = true
    · simp only [List.foldl_cons, hm, if_true]
      exact ih acc h
    · simp only [List.foldl_cons, hm, Bool.false_eq_true, ite_false]
      exact ih (true, acc.2 ++ [m0]) rfl

/-- A clean flag means the mount loop appended nothing. -/
theorem syncVolumeMounts_fold_flag_false (em : List VolumeMount) :
    ∀ (dm : List VolumeMount) (acc : Bool × List VolumeMount),
      (dm.foldl (fun a m =>
        if volumeMountExists em m.name then a else (true, a.2 ++ [m])) acc).1 = false →
      (dm.foldl (fun a m =>
        if volumeMountExists em m.name then a else (true, a.2 ++ [m])) acc).2 = acc.2 := by
  intro dm
  induction dm with
  | nil => intro acc _; rfl
  | cons m0 dm ih =>
    intro acc h
    by_cases hm : volumeMountExists em m0.name = true
    · simp only [List.foldl_cons, hm, if_true] at h ⊢
      exact ih acc h
    · simp only [List.foldl_cons, hm, Bool.false_eq_true, ite_false] at h
      exact absurd (syncVolumeMounts_fold_flag_mono em dm (true, acc.2 ++ [m0]) rfl)
        (by rw [h]; simp)

/-- A `changed = false` mount sync returns the existing mounts as is. -/
theorem syncVolumeMounts_flag_false (em dm : List VolumeMount) :
    (syncVolumeMounts em dm).1 = false → (syncVolumeMounts em dm).2 = em :=
  fun h => syncVolumeMounts_fold_flag_false em dm (false, em) h

/-- The container loop preserves length and is additive per index. -/
theorem syncMountsList_spec :
    ∀ (es ds : List Container) (b : Bool) (cs : List Container),
      syncMountsList es ds = some (b, cs) →
      ∀ i ec dc rc, es.get? i = some ec → ds.get? i = some dc →
        cs.get? i = some rc →
        (∀ n, volumeMountExists ec.volumeMounts n = true →
          volumeMountExists rc.volumeMounts n = true) ∧
        (∀ m ∈ dc.volumeMounts, volumeMountExists rc.volumeMounts m.name = true) := by
  intro es
  induction es with
  | nil =>
    intro ds b cs h i ec dc rc hec
    exact Option.noConfusion hec
  | cons ec0 es' ih =>
    intro ds b cs h i ec dc rc hec hdc hrc
    cases ds with
    | nil => simp [syncMountsList] at h
    | cons dc0 ds' =>
      simp only [syncMountsList] at h
      cases hrec : syncMountsList es' ds' with
      | none => rw [hrec] at h; simp at h
      | some t =>
        rw [hrec] at h
        injection Option.some.inj h with hb hcs
        subst hb
        subst hcs
        cases i with
        | zero =>
          simp only [List.get?_cons_zero, Option.some.injEq] at hec hdc hrc
          subst hec; subst hdc; subst hrc
          have hspec := syncVolumeMounts_spec ec0.volumeMounts dc0.volumeMounts
          by_cases hflag : (syncVolumeMounts ec0.volumeMounts dc0.volumeMounts).1 = true
          · simp only [hflag, if_true]
            exact hspec
          · have hflag' : (syncVolumeMounts ec0.volumeMounts dc0.volumeMounts).1 = false :=
              Bool.eq_false_iff.mpr hflag
            simp only [hflag', Bool.false_eq_true, ite_false]
            constructor
            · exact fun n h => h
            · intro m hmem
              have := hspec.2 m hmem
              -- a false flag means nothing was appended, so the sync result is em itself
              have hsame : (syncVolumeMounts ec0.volumeMounts dc0.volumeMounts).2 =
                  ec0.volumeMounts := by
                exact syncVolumeMounts_flag_false ec0.volumeMounts dc0.volumeMounts hflag'
              rw [hsame] at this
              exact this
        | succ j =>
          simp only [List.get?_cons_succ] at hec hdc hrc
          exact ih ds' t.1 t.2 (by rw [hrec]) j ec dc rc hec hdc hrc

/-- C6: whenever `DeploymentSyncVolumesAndMountsMutator` succeeds, the
volume names of existing afterwards are a superset of those before (no
volume is removed), every desired volume name is present afterwards,
and per container and per init container the mount names are likewise
additive: old mount names are kept and every desired mount name is
present. -/
theorem DeploymentSyncVolumesAndMountsMutator_additive (d e : Deployment)
    (r : MutateOutcome) (h : DeploymentSyncVolumesAndMountsMutator d e = some r) :
    (∀ n, volumeExists e.volumes n = true → volumeExists r.existing.volumes n = true) ∧
    (∀ v ∈ d.volumes, volumeExists r.existing.volumes v.name = true) ∧
    (∀ i ec dc rc, e.containers.get? i = some ec → d.containers.get? i = some dc →
      r.existing.containers.get? i = some rc →
      (∀ n, volumeMountExists ec.volumeMounts n = true →
        volumeMountExists rc.volumeMounts n = true) ∧
      (∀ m ∈ dc.volumeMounts, volumeMountExists rc.volumeMounts m.name = true)) ∧
    (∀ i ec dc rc, e.initContainers.get? i = some ec →
      d.initContainers.get? i = some dc →
      r.existing.initContainers.get? i = some rc →
      (∀ n, volumeMountExists ec.volumeMounts n = true →
        volumeMountExists rc.volumeMounts n = true) ∧
      (∀ m ∈ dc.volumeMounts, volumeMountExists rc.volumeMounts m.name = true)) := by
  simp only [DeploymentSyncVolumesAndMountsMutator] at h
  cases h1 : syncMountsList e.containers d.containers with
  | none => rw [h1] at h; exact Option.noConfusion h
  | some tc =>
    cases h2 : syncMountsList e.initContainers d.initContainers with
    | none => rw [h1, h2] at h; exact Option.noConfusion h
    | some ti =>
      rw [h1, h2] at h
      have hr := Option.some.inj h
      subst hr
      refine ⟨?_, ?_, ?_, ?_⟩
      · intro n hn
        exact (addMissingVolumes_spec d.volumes (false, e.volumes)).1 n hn
      · intro v hv
        exact (addMissingVolumes_spec d.volumes (false, e.volumes)).2 v hv
      · intro i ec dc rc hec hdc hrc
        exact syncMountsList_spec e.containers d.containers tc.1 tc.2
          (by rw [h1]) i ec dc rc hec hdc hrc
      · intro i ec dc rc hec hdc hrc
        exact syncMountsList_spec e.initContainers d.initContainers ti.1 ti.2
          (by rw [h2]) i ec dc rc hec hdc hrc

/-- Concrete desired fixture for the C6 witness. -/
def syncSampleDesired : Deployment :=
  sampleWith [sampleContainer [] [] [⟨"dm", "/m"⟩]] [] [⟨"tls", "t"⟩]

/-- Concrete existing fixture for the C6 witness. -/
def syncSampleExisting : Deployment :=
  sampleWith [sampleContainer [] [] [⟨"em", "/e"⟩]] [] [⟨"data", "d"⟩]

/-- The outcome of the sync mutator on the C6 witness fixtures. -/
def syncSampleResult : MutateOutcome :=
  ⟨true, none,
    sampleWith [sampleContainer [] [] [⟨"em", "/e"⟩, ⟨"dm", "/m"⟩]] []
      [⟨"data", "d"⟩, ⟨"tls", "t"⟩]⟩

/-- Witness for C6: on concrete fixtures, the pre-existing volume
"data" survives, the desired volume "tls" is added, the pre-existing
mount "em" survives, and the desired mount "dm" is added. -/
theorem DeploymentSyncVolumesAndMountsMutator_additive_witness :
    volumeExists syncSampleResult.existing.volumes "data" = true ∧
    volumeExists syncSampleResult.existing.volumes "tls" = true ∧
    volumeMountExists
      (syncSampleResult.existing.containers.headD defaultContainer).volumeMounts
      "em" = true ∧
    volumeMountExists
      (syncSampleResult.existing.containers.headD defaultContainer).volumeMounts
      "dm" = true := by
  have h := DeploymentSyncVolumesAndMountsMutator_additive syncSampleDesired
    syncSampleExisting syncSampleResult (by decide)
  refine ⟨h.1 "data" (by decide), h.2.1 ⟨"tls", "t"⟩ (by decide), ?_, ?_⟩
  · exact (h.2.2.1 0 (sampleContainer [] [] [⟨"em", "/e"⟩])
      (sampleContainer [] [] [⟨"dm", "/m"⟩])
      (syncSampleResult.existing.containers.headD defaultContainer)
      (by decide) (by decide) (by decide)).1 "em" (by decide)
  · exact (h.2.2.1 0 (sampleContainer [] [] [⟨"em", "/e"⟩])
      (sampleContainer [] [] [⟨"dm", "/m"⟩])
      (syncSampleResult.existing.containers.headD defaultContainer)
      (by decide) (by decide) (by decide)).2 ⟨"dm", "/m"⟩ (by decide)

/-! ## C7: TLS volume/mount removal -/

/-- Removing the first volume of one name does not disturb the presence
of a different name. -/
theorem volumeExists_removeFirst_ne (n n' : String) (hne : n' ≠ n) :
    ∀ vs : List Volume,
      volumeExists (removeFirstVolumeByName vs n) n' = volumeExists vs n' := by
  intro vs
  induction vs with
  | nil => rfl
  | cons v rest ih =>
    by_cases hv : (v.name == n) = true
    · have hvn : v.name = n := by simpa using hv
      have hv' : (v.name == n') = false := by
        rw [hvn]
        exact beq_false_of_ne (fun hEq => hne hEq.symm)
      simp [removeFirstVolumeByName, hv, volumeExists, hv']
    · simp [removeFirstVolumeByName, hv, volumeExists, List.any_cons] at ih ⊢
      rw [ih]

/-- Removing a name that is absent is a no-op. -/
theorem removeFirstVolumeByName_absent (n : String) :
    ∀ vs : List Volume, volumeExists vs n = false →
      removeFirstVolumeByName vs n = vs := by
  intro vs
  induction vs with
  | nil => intro _; rfl
  | cons v rest ih =>
    intro h
    simp only [volumeExists, List.any_cons, Bool.or_eq_false_iff] at h
    simp [removeFirstVolumeByName, h.1, ih (by simp [volumeExists, h.2])]

/-- A name with no occurrences is absent. -/
theorem volumeExists_false_of_countP_zero (n : String) :
    ∀ vs : List Volume, vs.countP (fun v => v.name == n) = 0 →
      volumeExists vs n = false := by
  intro vs
  induction vs with
  | nil => intro _; rfl
  | cons v rest ih =>
    intro h
    rw [List.countP_cons] at h
    by_cases hv : (v.name == n) = true
    · rw [hv] at h; simp at h
    · rw [Bool.eq_false_iff.mpr hv] at h
      simp only [Bool.false_eq_true, if_false] at h
      show ((v.name == n) || rest.any (fun x => x.name == n)) = false
      rw [Bool.eq_false_iff.mpr hv, Bool.false_or]
      exact ih (by simpa using h)

/-- Removing the first occurrence of a name occurring at most once
leaves the name absent. -/
theorem volumeExists_removeFirst_self (n : String) :
    ∀ vs : List Volume, vs.countP (fun v => v.name == n) ≤ 1 →
      volumeExists (removeFirstVolumeByName vs n) n = false := by
  intro vs
  induction vs with
  | nil => intro _; rfl
  | cons v rest ih =>
    intro h
    rw [List.countP_cons] at h
    by_cases hv : (v.name == n) = true
    · rw [hv] at h
      simp only [if_true] at h
      have hzero : rest.countP (fun v => v.name == n) = 0 := by omega
      simp [removeFirstVolumeByName, hv]
      exact volumeExists_false_of_countP_zero n rest hzero
    · rw [Bool.eq_false_iff.mpr hv] at h
      simp only [Bool.false_eq_true, if_false] at h
      rw [show removeFirstVolumeByName (v :: rest) n =
          v :: removeFirstVolumeByName rest n from by
        simp [removeFirstVolumeByName, hv]]
      show ((v.name == n) ||
        (removeFirstVolumeByName rest n).any (fun x => x.name == n)) = false
      rw [Bool.eq_false_iff.mpr hv, Bool.false_or]
      exact ih (by simpa using h)

/-- Removal of one name preserves occurrence counts of another. -/
theorem countP_removeFirst_ne (n n' : String) (hne : n' ≠ n) :
    ∀ vs : List Volume,
      (removeFirstVolumeByName vs n).countP (fun v => v.name == n') =
        vs.countP (fun v => v.name == n') := by
  intro vs
  induction vs with
  | nil => rfl
  | cons v rest ih =>
    by_cases hv : (v.name == n) = true
    · have hvn : v.name = n := by simpa using hv
      have hv' : (v.name == n') = false := by
        rw [hvn]
        exact beq_false_of_ne (fun hEq => hne hEq.symm)
      simp [removeFirstVolumeByName, hv, List.countP_cons, hv']
    · simp [removeFirstVolumeByName, hv, List.countP_cons, ih]

/-- Normal form of the volume-removal loop for the two TLS names. -/
theorem removeVolumesLoop_tls (vs : List Volume) :
    removeVolumesLoop ["writable-tls", "tls-secret"] vs =
      ((volumeExists vs "writable-tls" || volumeExists vs "tls-secret"),
        removeFirstVolumeByName
          (removeFirstVolumeByName vs "writable-tls") "tls-secret") := by
  have hne : "tls-secret" ≠ "writable-tls" := by decide
  by_cases hw : volumeExists vs "writable-tls" = true
  · by_cases ht : volumeExists vs "tls-secret" = true
    · have ht' : volumeExists (removeFirstVolumeByName vs "writable-tls")
          "tls-secret" = true := by
        rw [volumeExists_removeFirst_ne "writable-tls" "tls-secret" hne vs]
        exact ht
      simp [removeVolumesLoop, hw, ht']
    · have ht0 : volumeExists vs "tls-secret" = false := Bool.eq_false_iff.mpr ht
      have ht' : volumeExists (removeFirstVolumeByName vs "writable-tls")
          "tls-secret" = false := by
        rw [volumeExists_removeFirst_ne "writable-tls" "tls-secret" hne vs]
        exact ht0
      simp [removeVolumesLoop, hw, ht', ht0,
        removeFirstVolumeByName_absent "tls-secret" _ ht']
  · have hw0 : volumeExists vs "writable-tls" = false := Bool.eq_false_iff.mpr hw
    have hwid : removeFirstVolumeByName vs "writable-tls" = vs :=
      removeFirstVolumeByName_absent "writable-tls" vs hw0
    by_cases ht : volumeExists vs "tls-secret" = true
    · simp [removeVolumesLoop, hw0, ht, hwid]
    · have ht0 : volumeExists vs "tls-secret" = false := Bool.eq_false_iff.mpr ht
      simp [removeVolumesLoop, hw0, ht0, hwid,
        removeFirstVolumeByName_absent "tls-secret" vs ht0]

/-- C7 counterexample: a container referencing a "writable-tls" mount
while no volume of that name is in the pod spec.  The claim requires
the mount to be deleted and `changed = true`; the code removes nothing
and reports `changed = false`, because mount removal only runs after a
volume removal and `changed` tracks volumes alone. -/
theorem removeTLS_claim_counterexample :
    (DeploymentRemoveTLSVolumesAndMountsMutator sampleDeployment
      (sampleWith [sampleContainer [] [] [⟨"writable-tls", "/p"⟩]] []
        [⟨"data", "d"⟩])).changed = false ∧
    (DeploymentRemoveTLSVolumesAndMountsMutator sampleDeployment
      (sampleWith [sampleContainer [] [] [⟨"writable-tls", "/p"⟩]] []
        [⟨"data", "d"⟩])).existing =
      sampleWith [sampleContainer [] [] [⟨"writable-tls", "/p"⟩]] []
        [⟨"data", "d"⟩] ∧
    volumeMountExists
      ((sampleWith [sampleContainer [] [] [⟨"writable-tls", "/p"⟩]] []
        [⟨"data", "d"⟩]).containers.headD defaultContainer).volumeMounts
      "writable-tls" = true := by
  refine ⟨rfl, by decide, rfl⟩

/-- Normal form of the TLS-removal mutator: an `if` on the presence of
either slated volume name. -/
theorem removeTLS_eq (d e : Deployment) :
    DeploymentRemoveTLSVolumesAndMountsMutator d e =
      if (volumeExists e.volumes "writable-tls" ||
          volumeExists e.volumes "tls-secret") = true
      then ⟨true, none,
        ((e.setVolumes (removeFirstVolumeByName
            (removeFirstVolumeByName e.volumes "writable-tls") "tls-secret")).setContainers
          (e.containers.map (fun c => { c with volumeMounts :=
            (stripMountsLoop ["writable-tls", "tls-secret"] c.volumeMounts) }))).setInitContainers
          (e.initContainers.map (fun c => { c with volumeMounts :=
            (stripMountsLoop ["writable-tls", "tls-secret"] c.volumeMounts) }))⟩
      else ⟨false, none, e⟩ := by
  simp only [DeploymentRemoveTLSVolumesAndMountsMutator]
  rw [removeVolumesLoop_tls e.volumes]

/-- The mutator's `changed` flag is exactly the presence of either
slated volume name in the input. -/
theorem removeTLS_changed (d e : Deployment) :
    (DeploymentRemoveTLSVolumesAndMountsMutator d e).changed =
      (volumeExists e.volumes "writable-tls" ||
        volumeExists e.volumes "tls-secret") := by
  rw [removeTLS_eq d e]
  by_cases hb : (volumeExists e.volumes "writable-tls" ||
      volumeExists e.volumes "tls-secret") = true
  · simp [hb]
  · simp [Bool.eq_false_iff.mpr hb]

/-- C7 (amended): the mutator removes the first volume named
"writable-tls" and the first named "tls-secret" from the pod spec, and
— only when at least one such volume was present — also strips the
first matching mount per name from every container and init container;
`changed = true` exactly when a volume of either name was present in
existing (mounts alone never trigger removal or `changed`); on
`changed = false` existing is untouched; and when each name occurs at
most once among existing's volumes, a second run reports
`changed = false`. -/
theorem DeploymentRemoveTLSVolumesAndMountsMutator_amended (d d' e : Deployment) :
    (DeploymentRemoveTLSVolumesAndMountsMutator d e).err = none ∧
    ((DeploymentRemoveTLSVolumesAndMountsMutator d e).changed =
      (volumeExists e.volumes "writable-tls" || volumeExists e.volumes "tls-secret")) ∧
    ((DeploymentRemoveTLSVolumesAndMountsMutator d e).changed = false →
      (DeploymentRemoveTLSVolumesAndMountsMutator d e).existing = e) ∧
    ((DeploymentRemoveTLSVolumesAndMountsMutator d e).changed = true →
      (DeploymentRemoveTLSVolumesAndMountsMutator d e).existing =
        ((e.setVolumes (removeFirstVolumeByName
            (removeFirstVolumeByName e.volumes "writable-tls") "tls-secret")).setContainers
          (e.containers.map (fun c => { c with volumeMounts :=
            (stripMountsLoop ["writable-tls", "tls-secret"] c.volumeMounts) }))).setInitContainers
          (e.initContainers.map (fun c => { c with volumeMounts :=
            (stripMountsLoop ["writable-tls", "tls-secret"] c.volumeMounts) }))) ∧
    (e.volumes.countP (fun v => v.name == "writable-tls") ≤ 1 →
      e.volumes.countP (fun v => v.name == "tls-secret") ≤ 1 →
      (DeploymentRemoveTLSVolumesAndMountsMutator d'
        (DeploymentRemoveTLSVolumesAndMountsMutator d e).existing).changed = false) := by
  refine ⟨?_, ?_, ?_, ?_, ?_⟩
  · rw [removeTLS_eq d e]
    by_cases hb : (volumeExists e.volumes "writable-tls" ||
        volumeExists e.volumes "tls-secret") = true
    · simp [hb]
    · simp [Bool.eq_false_iff.mpr hb]
  · rw [removeTLS_eq d e]
    by_cases hb : (volumeExists e.volumes "writable-tls" ||
        volumeExists e.volumes "tls-secret") = true
    · simp [hb]
    · simp [Bool.eq_false_iff.mpr hb]
  · rw [removeTLS_eq d e]
    by_cases hb : (volumeExists e.volumes "writable-tls" ||
        volumeExists e.volumes "tls-secret") = true
    · simp [hb]
    · simp [Bool.eq_false_iff.mpr hb]
  · rw [removeTLS_eq d e]
    by_cases hb : (volumeExists e.volumes "writable-tls" ||
        volumeExists e.volumes "tls-secret") = true
    · simp [hb]
    · simp [Bool.eq_false_iff.mpr hb]
  · intro hcw hct
    rw [removeTLS_changed d', removeTLS_eq d e]
    by_cases hb : (volumeExists e.volumes "writable-tls" ||
        volumeExists e.volumes "tls-secret") = true
    · simp only [hb, if_true]
      have h1 : volumeExists (removeFirstVolumeByName
          (removeFirstVolumeByName e.volumes "writable-tls") "tls-secret")
          "writable-tls" = false := by
        rw [volumeExists_removeFirst_ne "tls-secret" "writable-tls" (by decide)]
        exact volumeExists_removeFirst_self "writable-tls" e.volumes hcw
      have h2 : volumeExists (removeFirstVolumeByName
          (removeFirstVolumeByName e.volumes "writable-tls") "tls-secret")
          "tls-secret" = false := by
        apply volumeExists_removeFirst_self "tls-secret"
        rw [countP_removeFirst_ne "writable-tls" "tls-secret" (by decide)]
        exact hct
      simp [h1, h2]
    · simp only [Bool.eq_false_iff.mpr hb, Bool.false_eq_true, ite_false]

/-- Concrete fixture for the C7 witness: volumes [writable-tls, data]. -/
def tlsSampleExisting : Deployment :=
  sampleWith [] [] [⟨"writable-tls", "w"⟩, ⟨"data", "d"⟩]

/-- Witness for C7 (amended): on volumes [writable-tls, data] the first
run removes writable-tls leaving [data] with changed reported, and a
second run reports no change. -/
theorem DeploymentRemoveTLSVolumesAndMountsMutator_amended_witness :
    (DeploymentRemoveTLSVolumesAndMountsMutator sampleDeployment
      tlsSampleExisting).changed = true ∧
    (DeploymentRemoveTLSVolumesAndMountsMutator sampleDeployment
      tlsSampleExisting).existing.volumes = [⟨"data", "d"⟩] ∧
    (DeploymentRemoveTLSVolumesAndMountsMutator sampleDeployment
      (DeploymentRemoveTLSVolumesAndMountsMutator sampleDeployment
        tlsSampleExisting).existing).changed = false := by
  have h := DeploymentRemoveTLSVolumesAndMountsMutator_amended sampleDeployment
    sampleDeployment tlsSampleExisting
  refine ⟨?_, ?_, h.2.2.2.2 (by decide) (by decide)⟩
  · rw [h.2.1]; decide
  · have hc : (DeploymentRemoveTLSVolumesAndMountsMutator sampleDeployment
        tlsSampleExisting).changed = true := by
      rw [h.2.1]; decide
    rw [h.2.2.2.1 hc]
    decide

/-! ## C8: map-merge mutators -/

/-- Setting a key makes it look up to the new value. -/
theorem lookupKey_setKey_same :
    ∀ (m : List (String × String)) (k v : String),
      lookupKey (setKey m k v) k = some v := by
  intro m
  induction m with
  | nil => intro k v; simp [setKey, lookupKey]
  | cons kv rest ih =>
    intro k v
    by_cases hk : kv.1 = k
    · simp [setKey, hk, lookupKey]
    · simp [setKey, hk, lookupKey, ih]

/-- Setting a key leaves other keys' lookups unchanged. -/
theorem lookupKey_setKey_ne :
    ∀ (m : List (String × String)) (k v k' : String), k' ≠ k →
      lookupKey (setKey m k v) k' = lookupKey m k' := by
  intro m
  induction m with
  | nil =>
    intro k v k' hne
    show (if k = k' then some v else lookupKey [] k') = lookupKey [] k'
    rw [if_neg (fun h : k = k' => hne h.symm)]
  | cons kv rest ih =>
    intro k v k' hne
    simp only [setKey]
    by_cases hk : kv.1 = k
    · rw [if_pos hk]
      show (if k = k' then some v else lookupKey rest k') =
        (if kv.1 = k' then some kv.2 else lookupKey rest k')
      rw [if_neg (fun h : k = k' => hne h.symm),
        if_neg (fun h : kv.1 = k' => hne (hk.symm.trans h).symm)]
    · rw [if_neg hk]
      show (if kv.1 = k' then some kv.2 else lookupKey (setKey rest k v) k') =
        (if kv.1 = k' then some kv.2 else lookupKey rest k')
      by_cases hk' : kv.1 = k'
      · rw [if_pos hk', if_pos hk']
      · rw [if_neg hk', if_neg hk', ih k v k' hne]

/-- Folding in desired pairs does not touch keys outside desired. -/
theorem mergeFold_preserve :
    ∀ (ds : List (String × String)) (m : List (String × String)) (k : String),
      k ∉ ds.map Prod.fst →
      lookupKey (ds.foldl (fun m kv => setKey m kv.1 kv.2) m) k = lookupKey m k := by
  intro ds
  induction ds with
  | nil => intro m k _; rfl
  | cons kv ds ih =>
    intro m k hk
    simp only [List.map_cons, List.mem_cons] at hk
    push_neg at hk
    rw [List.foldl_cons, ih (setKey m kv.1 kv.2) k hk.2,
      lookupKey_setKey_ne m kv.1 kv.2 k hk.1]

/-- With no duplicate desired keys, every desired pair wins. -/
theorem mergeFold_desired :
    ∀ (ds : List (String × String)) (m : List (String × String)) (k v : String),
      (ds.map Prod.fst).Nodup → (k, v) ∈ ds →
      lookupKey (ds.foldl (fun m kv => setKey m kv.1 kv.2) m) k = some v := by
  intro ds
  induction ds with
  | nil => intro m k v _ hmem; exact absurd hmem (List.not_mem_nil _)
  | cons kv ds ih =>
    intro m k v hnd hmem
    rw [List.map_cons, List.nodup_cons] at hnd
    rcases List.mem_cons.mp hmem with heq | hmem'
    · have hk : k = kv.1 := congrArg Prod.fst heq
      have hv : v = kv.2 := congrArg Prod.snd heq
      subst hk; subst hv
      rw [List.foldl_cons, mergeFold_preserve ds (setKey m kv.1 kv.2) kv.1 hnd.1]
      exact lookupKey_setKey_same m kv.1 kv.2
    · have hk : kv.1 ≠ k := by
        intro hEq
        exact hnd.1 (hEq ▸ List.mem_map_of_mem Prod.fst hmem')
      rw [List.foldl_cons]
      exact ih (setKey m kv.1 kv.2) k v hnd.2 hmem'

/-- Components of the modelled map merge: desired precedence,
preservation outside desired, and `changed` iff the map differs. -/
theorem mergeMap_components (em dm : List (String × String))
    (hnd : (dm.map Prod.fst).Nodup) :
    (∀ k v, (k, v) ∈ dm → lookupKey (MergeMapStringString false em dm).2 k = some v) ∧
    (∀ k, k ∉ dm.map Prod.fst →
      lookupKey (MergeMapStringString false em dm).2 k = lookupKey em k) ∧
    ((MergeMapStringString false em dm).1 = true ↔
      (MergeMapStringString false em dm).2 ≠ em) := by
  refine ⟨?_, ?_, ?_⟩
  · intro k v hmem
    exact mergeFold_desired dm em k v hnd hmem
  · intro k hk
    exact mergeFold_preserve dm em k hk
  · simp only [MergeMapStringString, Bool.false_or, decide_eq_true_eq]

/-- C8: each of the three map-merge mutators (object annotations, pod
template annotations, pod template labels) makes the merged map agree
with desired on every desired key (given desired has no duplicate
keys), preserves the lookup of every key outside desired, reports
`changed` exactly when the merged map differs from the original, and
never errors. -/
theorem mapMergeMutators_spec (d e : Deployment)
    (h1 : (d.objectMeta.metaAnnotations.map Prod.fst).Nodup)
    (h2 : (d.spec.template.templateAnnotations.map Prod.fst).Nodup)
    (h3 : (d.spec.template.labels.map Prod.fst).Nodup) :
    ((∀ k v, (k, v) ∈ d.objectMeta.metaAnnotations →
      lookupKey (DeploymentAnnotationsMutator d e).existing.objectMeta.metaAnnotations k
        = some v) ∧
     (∀ k, k ∉ d.objectMeta.metaAnnotations.map Prod.fst →
      lookupKey (DeploymentAnnotationsMutator d e).existing.objectMeta.metaAnnotations k
        = lookupKey e.objectMeta.metaAnnotations k) ∧
     ((DeploymentAnnotationsMutator d e).changed = true ↔
      (DeploymentAnnotationsMutator d e).existing.objectMeta.metaAnnotations
        ≠ e.objectMeta.metaAnnotations) ∧
     (DeploymentAnnotationsMutator d e).err = none) ∧
    ((∀ k v, (k, v) ∈ d.spec.template.templateAnnotations →
      lookupKey
        (DeploymentPodTemplateAnnotationsMutator d e).existing.spec.template.templateAnnotations
        k = some v) ∧
     (∀ k, k ∉ d.spec.template.templateAnnotations.map Prod.fst →
      lookupKey
        (DeploymentPodTemplateAnnotationsMutator d e).existing.spec.template.templateAnnotations
        k = lookupKey e.spec.template.templateAnnotations k) ∧
     ((DeploymentPodTemplateAnnotationsMutator d e).changed = true ↔
      (DeploymentPodTemplateAnnotationsMutator d e).existing.spec.template.templateAnnotations
        ≠ e.spec.template.templateAnnotations) ∧
     (DeploymentPodTemplateAnnotationsMutator d e).err = none) ∧
    ((∀ k v, (k, v) ∈ d.spec.template.labels →
      lookupKey (DeploymentPodTemplateLabelsMutator d e).existing.spec.template.labels k
        = some v) ∧
     (∀ k, k ∉ d.spec.template.labels.map Prod.fst →
      lookupKey (DeploymentPodTemplateLabelsMutator d e).existing.spec.template.labels k
        = lookupKey e.spec.template.labels k) ∧
     ((DeploymentPodTemplateLabelsMutator d e).changed = true ↔
      (DeploymentPodTemplateLabelsMutator d e).existing.spec.template.labels
        ≠ e.spec.template.labels) ∧
     (DeploymentPodTemplateLabelsMutator d e).err = none) := by
  refine ⟨⟨?_, ?_, ?_, rfl⟩, ⟨?_, ?_, ?_, rfl⟩, ⟨?_, ?_, ?_, rfl⟩⟩
  · exact (mergeMap_components e.objectMeta.metaAnnotations
      d.objectMeta.metaAnnotations h1).1
  · exact (mergeMap_components e.objectMeta.metaAnnotations
      d.objectMeta.metaAnnotations h1).2.1
  · exact (mergeMap_components e.objectMeta.metaAnnotations
      d.objectMeta.metaAnnotations h1).2.2
  · exact (mergeMap_components e.spec.template.templateAnnotations
      d.spec.template.templateAnnotations h2).1
  · exact (mergeMap_components e.spec.template.templateAnnotations
      d.spec.template.templateAnnotations h2).2.1
  · exact (mergeMap_components e.spec.template.templateAnnotations
      d.spec.template.templateAnnotations h2).2.2
  · exact (mergeMap_components e.spec.template.labels d.spec.template.labels h3).1
  · exact (mergeMap_components e.spec.template.labels d.spec.template.labels h3).2.1
  · exact (mergeMap_components e.spec.template.labels d.spec.template.labels h3).2.2

/-- Desired fixture for the C8 witness: overrides "over" and adds "new". -/
def mergeSampleDesired : Deployment :=
  ⟨⟨[("over", "b"), ("new", "2")]⟩, ⟨none, ⟨[], [], ⟨[], [], [], ""⟩⟩⟩⟩

/-- Existing fixture for the C8 witness: has "keep" and "over". -/
def mergeSampleExisting : Deployment :=
  ⟨⟨[("keep", "1"), ("over", "a")]⟩, ⟨none, ⟨[], [], ⟨[], [], [], ""⟩⟩⟩⟩

/-- Witness for C8: the overridden key takes desired's value, the
untouched key keeps its original lookup, and a change is reported. -/
theorem mapMergeMutators_spec_witness :
    lookupKey (DeploymentAnnotationsMutator mergeSampleDesired
      mergeSampleExisting).existing.objectMeta.metaAnnotations "over" = some "b" ∧
    lookupKey (DeploymentAnnotationsMutator mergeSampleDesired
      mergeSampleExisting).existing.objectMeta.metaAnnotations "keep" =
      lookupKey mergeSampleExisting.objectMeta.metaAnnotations "keep" ∧
    (DeploymentAnnotationsMutator mergeSampleDesired mergeSampleExisting).changed
      = true := by
  have h := mapMergeMutators_spec mergeSampleDesired mergeSampleExisting
    (by decide) (by decide) (by decide)
  exact ⟨h.1.1 "over" "b" (by decide), h.1.2.1 "keep" (by decide),
    h.1.2.2.1.mpr (by decide)⟩

end Reconcilers
